import Mathlib

set_option maxRecDepth 8000

/-!
Shallow embedding of the platformer movement-and-collision core shared by
`smb9.26.25.py` (lines 39-159) and the Samsoft DS engine in
`smb1.0a9.26.25.py` (lines 244-498).  The two `Player.update` bodies are
textually identical pipelines; the DS variant additionally classifies tiles
as solid or one-way and caps `dt` in its host loop.  Python floats are
modelled as rationals, `pygame.Rect` integer coordinates as `Int`, and the
module-level tuning constants as an explicit `Config` record with one
instance per file variant.
-/

namespace Platformer

/-- Tuning constants of the movement core.  Field names follow the
module-level constants of both source files; `smbConfig` and `dsConfig`
below carry the concrete values of each variant. -/
structure Config where
  WALK_MAX_SPEED : ℚ
  RUN_MAX_SPEED : ℚ
  ACCEL : ℚ
  FRICTION : ℚ
  GRAVITY : ℚ
  JUMP_SPEED : ℚ
  MAX_FALL_SPEED : ℚ
  COYOTE_TIME : ℚ
  JUMP_BUFFER : ℚ
deriving DecidableEq

/-- Constants of `smb9.26.25.py` lines 13-21 (also lines 13-21 of the first
program in `smb1.0a9.26.25.py`). -/
def smbConfig : Config where
  WALK_MAX_SPEED := 160
  RUN_MAX_SPEED := 240
  ACCEL := 3200
  FRICTION := 3600
  GRAVITY := 3000
  JUMP_SPEED := 900
  MAX_FALL_SPEED := 1400
  COYOTE_TIME := 8/100
  JUMP_BUFFER := 12/100

/-- Constants of the DS engine, `smb1.0a9.26.25.py` lines 206-216
(expressed with `TILE_SIZE = 16` multiplied out). -/
def dsConfig : Config where
  WALK_MAX_SPEED := 80
  RUN_MAX_SPEED := 120
  ACCEL := 1600
  FRICTION := 1800
  GRAVITY := 1500
  JUMP_SPEED := 448
  MAX_FALL_SPEED := 700
  COYOTE_TIME := 8/100
  JUMP_BUFFER := 12/100

/-- Per-tick input snapshot.  `left`, `right`, `running` stand for the key
disjunctions read at the top of `Player.update` (`K_LEFT or K_a`,
`K_RIGHT or K_d`, `K_LSHIFT or K_RSHIFT or K_x`). -/
structure Keys where
  left : Bool
  right : Bool
  running : Bool
deriving DecidableEq

/-- Integer axis-aligned rectangle, as `pygame.Rect` (x, y, w, h). -/
structure Rect where
  x : ℤ
  y : ℤ
  w : ℤ
  h : ℤ
deriving DecidableEq

/-- `rect.left`. -/
def Rect.left (r : Rect) : ℤ := r.x

/-- `rect.right`. -/
def Rect.right (r : Rect) : ℤ := r.x + r.w

/-- `rect.top`. -/
def Rect.top (r : Rect) : ℤ := r.y

/-- `rect.bottom`. -/
def Rect.bottom (r : Rect) : ℤ := r.y + r.h

/-- `pygame.Rect.colliderect`: true exactly when the open interiors
overlap on both axes (touching edges do not collide). -/
def collide (a b : Rect) : Bool :=
  decide (a.x < b.x + b.w ∧ a.y < b.y + b.h ∧ b.x < a.x + a.w ∧ b.y < a.y + a.h)

/-- Tile classification of the DS engine (`SOLID_TILES` vs
`ONE_WAY_TILES`, lines 238-239).  The plain `smb9.26.25.py` variant passes
only solid tiles. -/
inductive TileKind where
  | solid : TileKind
  | oneWay : TileKind
deriving DecidableEq

/-- The mutable fields of `Player` that the per-tick physics reads and
writes: the `pygame.Rect` (x, y, w, h; w and h are never written), the
velocities, `facing`, `on_ground` and the two timers. -/
structure PlayerState where
  x : ℤ
  y : ℤ
  w : ℤ
  h : ℤ
  vx : ℚ
  vy : ℚ
  facing : ℤ
  on_ground : Bool
  coyote : ℚ
  jump_buf : ℚ
deriving DecidableEq

/-- The player's current AABB, `self.rect`. -/
def rectOf (s : PlayerState) : Rect := ⟨s.x, s.y, s.w, s.h⟩

/-- Helper `sign` (both files): `(x > 0) - (x < 0)`.  The Python function
returns an int that is immediately consumed in float arithmetic, so it is
modelled directly in ℚ. -/
def sign (x : ℚ) : ℚ :=
  (if 0 < x then (1 : ℚ) else 0) - (if x < 0 then (1 : ℚ) else 0)

/-- Python 3 `round` on an exact rational value: round half to even
(banker's rounding).  The source computes `int(round(v))`; `round` already
yields an integral value so the outer `int` is the identity. -/
def pyround (q : ℚ) : ℤ :=
  if q - ⌊q⌋ < 1/2 then ⌊q⌋
  else if 1/2 < q - ⌊q⌋ then ⌊q⌋ + 1
  else if ⌊q⌋ % 2 = 0 then ⌊q⌋ else ⌊q⌋ + 1

/-- Horizontal accel/friction block of `Player.update`
(`smb9.26.25.py` lines 104-115, DS lines 440-451): with exactly one
direction held, accelerate and set `facing`; otherwise apply friction,
clamped so it never overshoots past zero. -/
def stepHoriz (cfg : Config) (keys : Keys) (dt : ℚ) (s : PlayerState) : PlayerState :=
  if keys.left ^^ keys.right then
    { s with vx := s.vx + (if keys.left then -cfg.ACCEL else cfg.ACCEL) * dt,
             facing := if keys.left then -1 else 1 }
  else
    if s.vx ≠ 0 then
      if |cfg.FRICTION * dt * sign s.vx| > |s.vx| then { s with vx := 0 }
      else { s with vx := s.vx - cfg.FRICTION * dt * sign s.vx }
    else s

/-- The active speed cap: `RUN_MAX_SPEED if running else WALK_MAX_SPEED`. -/
def max_speed (cfg : Config) (keys : Keys) : ℚ :=
  if keys.running then cfg.RUN_MAX_SPEED else cfg.WALK_MAX_SPEED

/-- Speed-clamp block (`smb9.26.25.py` lines 117-119, DS lines 453-455). -/
def stepClamp (cfg : Config) (keys : Keys) (s : PlayerState) : PlayerState :=
  if |s.vx| > max_speed cfg keys then
    { s with vx := max_speed cfg keys * sign s.vx }
  else s

/-- Timer block (`smb9.26.25.py` lines 121-127, DS lines 457-460): reset
coyote on ground else decay it; decay the jump buffer whenever it is
positive.  The source's two sequential assignments touch disjoint fields,
so they are written as one record update. -/
def stepTimers (cfg : Config) (dt : ℚ) (s : PlayerState) : PlayerState :=
  { s with
    coyote := if s.on_ground then cfg.COYOTE_TIME else max 0 (s.coyote - dt),
    jump_buf := if s.jump_buf > 0 then max 0 (s.jump_buf - dt) else s.jump_buf }

/-- Jump-consume block (`smb9.26.25.py` lines 129-134, DS lines 462-467). -/
def stepJump (cfg : Config) (s : PlayerState) : PlayerState :=
  if s.jump_buf > 0 ∧ (s.on_ground ∨ s.coyote > 0) then
    { s with vy := -cfg.JUMP_SPEED, on_ground := false, coyote := 0, jump_buf := 0 }
  else s

/-- Gravity integration (`smb9.26.25.py` line 137, DS line 470). -/
def stepGravity (cfg : Config) (dt : ℚ) (s : PlayerState) : PlayerState :=
  { s with vy := min (s.vy + cfg.GRAVITY * dt) cfg.MAX_FALL_SPEED }

/-- Body of the X-axis collision loop (`smb9.26.25.py` lines 141-147, DS
lines 475-479): only solid tiles are tested; on overlap the leading edge is
snapped flush and `vx` is zeroed (`self.vx = 0.0` runs in every colliding
branch, here written into each branch). -/
def resolveX (s : PlayerState) (t : TileKind × Rect) : PlayerState :=
  if t.1 = TileKind.solid ∧ collide (rectOf s) t.2 then
    if s.vx > 0 then { s with x := t.2.x - s.w, vx := 0 }
    else if s.vx < 0 then { s with x := t.2.x + t.2.w, vx := 0 }
    else { s with vx := 0 }
  else s

/-- X displacement plus the X collision loop (`smb9.26.25.py` lines
140-147, DS lines 474-479). -/
def stepMoveX (tiles : List (TileKind × Rect)) (dt : ℚ) (s : PlayerState) : PlayerState :=
  (tiles.foldl resolveX { s with x := s.x + pyround (s.vx * dt) })

/-- Body of the Y-axis collision loop (`smb9.26.25.py` lines 151-159, DS
lines 485-498).  Solid tiles: descending snaps the bottom to the tile top,
zeroes `vy` and grounds; ascending snaps the top to the tile bottom and
zeroes `vy`.  One-way tiles (DS only): resolved only when descending with
the bottom within 8 px of the tile top and `centery` (= `y + h // 2`) at or
above the tile top. -/
def resolveY (s : PlayerState) (t : TileKind × Rect) : PlayerState :=
  if t.1 = TileKind.solid then
    if collide (rectOf s) t.2 then
      if s.vy > 0 then { s with y := t.2.y - s.h, vy := 0, on_ground := true }
      else if s.vy < 0 then { s with y := t.2.y + t.2.h, vy := 0 }
      else s
    else s
  else
    if collide (rectOf s) t.2 ∧ s.vy > 0 ∧ (s.y + s.h) - t.2.y ≤ 8 ∧
        s.y + s.h / 2 ≤ t.2.y then
      { s with y := t.2.y - s.h, vy := 0, on_ground := true }
    else s

/-- Clearing of `on_ground`, the Y displacement and the Y collision loop
(`smb9.26.25.py` lines 149-159, DS lines 482-498). -/
def stepMoveY (tiles : List (TileKind × Rect)) (dt : ℚ) (s : PlayerState) : PlayerState :=
  tiles.foldl resolveY { s with on_ground := false, y := s.y + pyround (s.vy * dt) }

/-- `Player.update(keys, tiles, dt)`: the whole per-tick pipeline, in
source order (`smb9.26.25.py` lines 97-159, DS lines 431-498).  `tiles`
stands for the tile list (plain variant) or the classified
`tilemap.rects_around(self.rect)` result (DS variant). -/
def update (cfg : Config) (keys : Keys) (tiles : List (TileKind × Rect))
    (dt : ℚ) (s : PlayerState) : PlayerState :=
  stepMoveY tiles dt
    (stepMoveX tiles dt
      (stepGravity cfg dt
        (stepJump cfg
          (stepTimers cfg dt
            (stepClamp cfg keys
              (stepHoriz cfg keys dt s))))))

/-- `Player.handle_event` keydown branch (`smb9.26.25.py` lines 93-95, DS
lines 423-425): a jump-key press loads the jump buffer to its maximum.
The host loop runs all event handling before `Player.update` each frame. -/
def handle_event (cfg : Config) (jumpKeyDown : Bool) (s : PlayerState) : PlayerState :=
  if jumpKeyDown then { s with jump_buf := cfg.JUMP_BUFFER } else s

/-- Construction-time data of `Player.__init__(frames)` (`smb9.26.25.py`
lines 46-52): the kept frame list and the initial image `frames[0]`. -/
structure PlayerData (α : Type) where
  frames : List α
  image : α

/-- `Player.__init__(frames)` (`smb9.26.25.py` lines 46-52, identical in
the first program of `smb1.0a9.26.25.py`): raises
`ValueError("Frames list cannot be empty")` when `frames` is empty,
otherwise keeps the frames and sets `image = frames[0]`. -/
def playerInit {α : Type} (frames : List α) : Except String (PlayerData α) :=
  match frames with
  | [] => Except.error "Frames list cannot be empty"
  | f :: fs => Except.ok { frames := f :: fs, image := f }

/-! ### Concrete scenarios

States and tiles used to instantiate the general theorems (all with the
`smb9.26.25.py` tuning: `TILE_SIZE = 32`, 60 FPS host loop). -/

/-- No key held. -/
def noKeys : Keys := ⟨false, false, false⟩

/-- A solid ground tile. -/
def groundTile : Rect := ⟨32, 416, 32, 32⟩

/-- A body resting exactly on top of `groundTile`, no velocity, no input. -/
def restState : PlayerState :=
  { x := 32, y := 384, w := 32, h := 32, vx := 0, vy := 0,
    facing := 1, on_ground := true, coyote := 0, jump_buf := 0 }

/-- A solid wall tile just to the right of `wallState`. -/
def wallTile : Rect := ⟨16, 0, 32, 32⟩

/-- A body moving right toward `wallTile`. -/
def wallState : PlayerState :=
  { x := 0, y := 0, w := 32, h := 32, vx := 100, vy := 0,
    facing := 1, on_ground := false, coyote := 0, jump_buf := 0 }

/-- A one-way platform tile. -/
def oneTile : Rect := ⟨0, 448, 32, 32⟩

/-- A body descending onto `oneTile` with its bottom just past the top. -/
def dropState : PlayerState :=
  { x := 0, y := 420, w := 32, h := 32, vx := 0, vy := 50,
    facing := 1, on_ground := false, coyote := 0, jump_buf := 0 }

/-- A body overlapping `oneTile` while ascending. -/
def riseState : PlayerState := { dropState with vy := -100 }

/-- A solid ground tile with the DS engine's `TILE_SIZE = 16`. -/
def dsTile : Rect := ⟨16, 160, 16, 16⟩

/-- A DS-engine body (12 x 16, as `_make_frames` builds it) resting exactly
on top of `dsTile`, no velocity, no input. -/
def dsRestState : PlayerState :=
  { x := 16, y := 144, w := 12, h := 16, vx := 0, vy := 0,
    facing := 1, on_ground := true, coyote := 0, jump_buf := 0 }

/-! ### Basic facts about the embedded primitives -/

lemma sign_of_pos {x : ℚ} (h : 0 < x) : sign x = 1 := by
  unfold sign
  rw [if_pos h, if_neg (by linarith)]
  norm_num

lemma sign_of_neg {x : ℚ} (h : x < 0) : sign x = -1 := by
  unfold sign
  rw [if_neg (by linarith), if_pos h]
  norm_num

lemma collide_iff {a b : Rect} :
    collide a b = true ↔
      (a.x < b.x + b.w ∧ a.y < b.y + b.h ∧ b.x < a.x + a.w ∧ b.y < a.y + a.h) := by
  simp [collide]

lemma pyround_zero : pyround 0 = 0 := by
  unfold pyround
  norm_num

lemma one_le_pyround {q : ℚ} (h : 1/2 < q) : 1 ≤ pyround q := by
  have hfl : (⌊q⌋ : ℚ) ≤ q := Int.floor_le q
  have hgt : q < ⌊q⌋ + 1 := Int.lt_floor_add_one q
  unfold pyround
  split
  · rename_i h1
    have h0 : (0 : ℚ) < (⌊q⌋ : ℚ) := by linarith
    have : 0 < ⌊q⌋ := by exact_mod_cast h0
    omega
  · split
    · rename_i h1 h2
      have hm : (-1 : ℚ) < (⌊q⌋ : ℚ) := by linarith
      have : -1 < ⌊q⌋ := by exact_mod_cast hm
      omega
    · rename_i h1 h2
      have h0 : (0 : ℚ) < (⌊q⌋ : ℚ) := by linarith
      have : 0 < ⌊q⌋ := by exact_mod_cast h0
      split <;> omega

lemma pyround_le_floor_add_one (q : ℚ) : pyround q ≤ ⌊q⌋ + 1 := by
  unfold pyround
  split
  · omega
  · split
    · omega
    · split <;> omega

/-! ### Per-step bookkeeping lemmas -/

lemma stepTimers_coyote_nonneg {cfg : Config} {dt : ℚ} {s : PlayerState}
    (hct : 0 ≤ cfg.COYOTE_TIME) : 0 ≤ (stepTimers cfg dt s).coyote := by
  show 0 ≤ if s.on_ground then cfg.COYOTE_TIME else max 0 (s.coyote - dt)
  split
  · exact hct
  · exact le_max_left 0 _

lemma stepTimers_jump_buf_nonneg {cfg : Config} {dt : ℚ} {s : PlayerState}
    (hjb : 0 ≤ s.jump_buf) : 0 ≤ (stepTimers cfg dt s).jump_buf := by
  show 0 ≤ if s.jump_buf > 0 then max 0 (s.jump_buf - dt) else s.jump_buf
  split
  · exact le_max_left 0 _
  · exact hjb

lemma stepJump_cases (cfg : Config) (s : PlayerState) :
    stepJump cfg s = s ∨
      stepJump cfg s =
        { s with vy := -cfg.JUMP_SPEED, on_ground := false, coyote := 0, jump_buf := 0 } := by
  unfold stepJump
  split
  · exact Or.inr rfl
  · exact Or.inl rfl

lemma stepGravity_vy_le (cfg : Config) (dt : ℚ) (s : PlayerState) :
    (stepGravity cfg dt s).vy ≤ cfg.MAX_FALL_SPEED :=
  min_le_right _ _

lemma stepClamp_cases (cfg : Config) (keys : Keys) (s : PlayerState) :
    stepClamp cfg keys s = s ∨
      stepClamp cfg keys s = { s with vx := max_speed cfg keys * sign s.vx } := by
  unfold stepClamp
  split
  · exact Or.inr rfl
  · exact Or.inl rfl

lemma stepClamp_abs_vx {cfg : Config} {keys : Keys} (s : PlayerState)
    (hm : 0 ≤ max_speed cfg keys) :
    |(stepClamp cfg keys s).vx| ≤ max_speed cfg keys := by
  unfold stepClamp
  split
  · rename_i hgt
    rcases lt_trichotomy s.vx 0 with h | h | h
    · show |max_speed cfg keys * sign s.vx| ≤ _
      rw [sign_of_neg h]
      rw [abs_of_nonpos (by linarith)]
      linarith
    · exfalso
      rw [h, abs_zero] at hgt
      linarith
    · show |max_speed cfg keys * sign s.vx| ≤ _
      rw [sign_of_pos h]
      rw [abs_of_nonneg (by linarith)]
      linarith
  · rename_i hle
    exact le_of_not_lt hle

lemma resolveX_shape (s : PlayerState) (t : TileKind × Rect) :
    ∃ a v, resolveX s t = { s with x := a, vx := v } ∧ (v = s.vx ∨ v = 0) := by
  unfold resolveX
  split
  · split
    · exact ⟨_, _, rfl, Or.inr rfl⟩
    · split
      · exact ⟨_, _, rfl, Or.inr rfl⟩
      · exact ⟨s.x, 0, rfl, Or.inr rfl⟩
  · exact ⟨s.x, s.vx, rfl, Or.inl rfl⟩

lemma resolveY_shape (s : PlayerState) (t : TileKind × Rect) :
    ∃ b v g, resolveY s t = { s with y := b, vy := v, on_ground := g } ∧
      (v = s.vy ∨ v = 0) := by
  unfold resolveY
  split
  · split
    · split
      · exact ⟨_, _, _, rfl, Or.inr rfl⟩
      · split
        · exact ⟨_, _, _, rfl, Or.inr rfl⟩
        · exact ⟨s.y, s.vy, s.on_ground, rfl, Or.inl rfl⟩
    · exact ⟨s.y, s.vy, s.on_ground, rfl, Or.inl rfl⟩
  · split
    · exact ⟨_, _, _, rfl, Or.inr rfl⟩
    · exact ⟨s.y, s.vy, s.on_ground, rfl, Or.inl rfl⟩

lemma foldl_resolveX_shape (tiles : List (TileKind × Rect)) :
    ∀ s : PlayerState,
      ∃ a v, tiles.foldl resolveX s = { s with x := a, vx := v } ∧ (v = s.vx ∨ v = 0) := by
  induction tiles with
  | nil => exact fun s => ⟨s.x, s.vx, rfl, Or.inl rfl⟩
  | cons t ts ih =>
    intro s
    obtain ⟨a, v, h1, h2⟩ := resolveX_shape s t
    obtain ⟨a2, v2, h3, h4⟩ := ih (resolveX s t)
    refine ⟨a2, v2, ?_, ?_⟩
    · rw [List.foldl_cons, h3, h1]
    · have hv : (resolveX s t).vx = v := by rw [h1]
      rcases h4 with h4 | h4
      · rw [hv] at h4
        rcases h2 with h2 | h2
        · exact Or.inl (h4.trans h2)
        · exact Or.inr (h4.trans h2)
      · exact Or.inr h4

lemma foldl_resolveY_shape (tiles : List (TileKind × Rect)) :
    ∀ s : PlayerState,
      ∃ b v g, tiles.foldl resolveY s = { s with y := b, vy := v, on_ground := g } ∧
        (v = s.vy ∨ v = 0) := by
  induction tiles with
  | nil => exact fun s => ⟨s.y, s.vy, s.on_ground, rfl, Or.inl rfl⟩
  | cons t ts ih =>
    intro s
    obtain ⟨b, v, g, h1, h2⟩ := resolveY_shape s t
    obtain ⟨b2, v2, g2, h3, h4⟩ := ih (resolveY s t)
    refine ⟨b2, v2, g2, ?_, ?_⟩
    · rw [List.foldl_cons, h3, h1]
    · have hv : (resolveY s t).vy = v := by rw [h1]
      rcases h4 with h4 | h4
      · rw [hv] at h4
        rcases h2 with h2 | h2
        · exact Or.inl (h4.trans h2)
        · exact Or.inr (h4.trans h2)
      · exact Or.inr h4

lemma stepMoveX_shape (tiles : List (TileKind × Rect)) (dt : ℚ) (s : PlayerState) :
    ∃ a v, stepMoveX tiles dt s = { s with x := a, vx := v } ∧ (v = s.vx ∨ v = 0) := by
  unfold stepMoveX
  obtain ⟨a, v, h1, h2⟩ :=
    foldl_resolveX_shape tiles { s with x := s.x + pyround (s.vx * dt) }
  exact ⟨a, v, h1, h2⟩

lemma stepMoveY_shape (tiles : List (TileKind × Rect)) (dt : ℚ) (s : PlayerState) :
    ∃ b v g, stepMoveY tiles dt s = { s with y := b, vy := v, on_ground := g } ∧
      (v = s.vy ∨ v = 0) := by
  unfold stepMoveY
  obtain ⟨b, v, g, h1, h2⟩ :=
    foldl_resolveY_shape tiles { s with on_ground := false, y := s.y + pyround (s.vy * dt) }
  exact ⟨b, v, g, h1, h2⟩

lemma stepHoriz_jump_buf (cfg : Config) (keys : Keys) (dt : ℚ) (s : PlayerState) :
    (stepHoriz cfg keys dt s).jump_buf = s.jump_buf := by
  unfold stepHoriz
  split
  · rfl
  · split
    · split <;> rfl
    · rfl

lemma stepClamp_jump_buf (cfg : Config) (keys : Keys) (s : PlayerState) :
    (stepClamp cfg keys s).jump_buf = s.jump_buf := by
  unfold stepClamp
  split <;> rfl

/-! ### The claims -/

/-- C1: in every per-tick update, the jump step is evaluated exactly once,
between the timer update and gravity; it fires iff `jump_buf > 0` and
(`on_ground` or `coyote > 0`) at that point, and firing sets
`vy = -JUMP_SPEED`, clears `on_ground` and zeroes both timers. -/
theorem jump_trigger_spec (cfg : Config) :
    (∀ (keys : Keys) (tiles : List (TileKind × Rect)) (dt : ℚ) (s : PlayerState),
        update cfg keys tiles dt s =
          stepMoveY tiles dt (stepMoveX tiles dt (stepGravity cfg dt (stepJump cfg
            (stepTimers cfg dt (stepClamp cfg keys (stepHoriz cfg keys dt s))))))) ∧
    (∀ p : PlayerState,
      ((0 < p.jump_buf ∧ (p.on_ground = true ∨ 0 < p.coyote)) →
        stepJump cfg p =
          { p with vy := -cfg.JUMP_SPEED, on_ground := false, coyote := 0, jump_buf := 0 }) ∧
      (¬(0 < p.jump_buf ∧ (p.on_ground = true ∨ 0 < p.coyote)) →
        stepJump cfg p = p)) := by
  refine ⟨fun keys tiles dt s => rfl, fun p => ⟨fun h => ?_, fun h => ?_⟩⟩
  · unfold stepJump
    rw [if_pos h]
  · unfold stepJump
    rw [if_neg h]

/-- C1 instantiated: a grounded body with a loaded buffer jumps; one with an
empty buffer does not. -/
theorem jump_trigger_spec_witness :
    stepJump smbConfig { restState with jump_buf := 1/10 } =
      { { restState with jump_buf := 1/10 } with
        vy := -smbConfig.JUMP_SPEED, on_ground := false, coyote := 0, jump_buf := 0 } ∧
    stepJump smbConfig restState = restState :=
  ⟨((jump_trigger_spec smbConfig).2 _).1 (by with_unfolding_all decide),
   ((jump_trigger_spec smbConfig).2 _).2 (by with_unfolding_all decide)⟩

/-- C4: on a tick with no (or contradictory) directional input and nonzero
`vx`, the friction step strictly shrinks `|vx|` and never flips its sign. -/
theorem friction_strict_decrease (cfg : Config) (keys : Keys) (dt : ℚ) (s : PlayerState)
    (hk : (keys.left ^^ keys.right) = false) (hdt : 0 < dt)
    (hf : 0 < cfg.FRICTION) (hvx : s.vx ≠ 0) :
    |(stepHoriz cfg keys dt s).vx| < |s.vx| ∧
    (0 < s.vx → 0 ≤ (stepHoriz cfg keys dt s).vx) ∧
    (s.vx < 0 → (stepHoriz cfg keys dt s).vx ≤ 0) := by
  unfold stepHoriz
  rw [if_neg (by simp [hk]), if_pos hvx]
  have hfd : 0 < cfg.FRICTION * dt := mul_pos hf hdt
  rcases lt_trichotomy s.vx 0 with hneg | h0 | hpos
  · rw [sign_of_neg hneg]
    have hd : cfg.FRICTION * dt * (-1) = -(cfg.FRICTION * dt) := by ring
    rw [hd, abs_neg, abs_of_pos hfd]
    split
    · rename_i hgt
      refine ⟨?_, fun hp => absurd hp (by linarith), fun _ => le_refl 0⟩
      show |(0 : ℚ)| < |s.vx|
      rw [abs_zero]
      exact abs_pos.mpr hvx
    · rename_i hle
      push_neg at hle
      rw [abs_of_neg hneg] at hle
      have hsub : s.vx - -(cfg.FRICTION * dt) = s.vx + cfg.FRICTION * dt := by ring
      refine ⟨?_, fun hp => absurd hp (by linarith), fun _ => ?_⟩
      · show |s.vx - -(cfg.FRICTION * dt)| < |s.vx|
        rw [hsub, abs_of_neg hneg, abs_of_nonpos (by linarith)]
        linarith
      · show s.vx - -(cfg.FRICTION * dt) ≤ 0
        rw [hsub]
        linarith
  · exact absurd h0 hvx
  · rw [sign_of_pos hpos, mul_one, abs_of_pos hfd]
    split
    · rename_i hgt
      refine ⟨?_, fun _ => le_refl 0, fun hn => absurd hn (by linarith)⟩
      show |(0 : ℚ)| < |s.vx|
      rw [abs_zero]
      exact abs_pos.mpr hvx
    · rename_i hle
      push_neg at hle
      rw [abs_of_pos hpos] at hle
      refine ⟨?_, fun _ => ?_, fun hn => absurd hn (by linarith)⟩
      · show |s.vx - cfg.FRICTION * dt| < |s.vx|
        rw [abs_of_pos hpos, abs_of_nonneg (by linarith)]
        linarith
      · show 0 ≤ s.vx - cfg.FRICTION * dt
        linarith

/-- C4 instantiated: a coasting body at `vx = 100` decelerates under
friction at `dt = 1/60` without crossing zero. -/
theorem friction_strict_decrease_witness :
    ((noKeys.left ^^ noKeys.right) = false) ∧ (0 < (1 : ℚ)/60) ∧
    (0 < smbConfig.FRICTION) ∧ (wallState.vx ≠ 0) ∧
    (|(stepHoriz smbConfig noKeys (1/60) wallState).vx| < |wallState.vx| ∧
     (0 < wallState.vx → 0 ≤ (stepHoriz smbConfig noKeys (1/60) wallState).vx) ∧
     (wallState.vx < 0 → (stepHoriz smbConfig noKeys (1/60) wallState).vx ≤ 0)) :=
  ⟨rfl, by norm_num, by with_unfolding_all decide, by with_unfolding_all decide,
   friction_strict_decrease smbConfig noKeys (1/60) wallState rfl (by norm_num)
     (by with_unfolding_all decide) (by with_unfolding_all decide)⟩

/-- C7 as stated fails on the code: after a one-tick buffered jump from rest
at `dt = 1/60`, end-of-tick `vy` is `-850`, not `-900`, because gravity
integrates after the jump step within the same tick. -/
theorem jump_scenario_cex :
    (update smbConfig noKeys [(TileKind.solid, groundTile)] (1/60)
        (handle_event smbConfig true restState)).vy ≠ -900 := by
  with_unfolding_all decide

/-- C7 amended: the jump step sets `vy` to exactly `-900` within the tick;
at the end of the tick `vy = -900 + GRAVITY/60 = -850` and `on_ground` is
false. -/
theorem jump_scenario_amended :
    (stepJump smbConfig (stepTimers smbConfig (1/60) (stepClamp smbConfig noKeys
        (stepHoriz smbConfig noKeys (1/60) (handle_event smbConfig true restState))))).vy
      = -900 ∧
    (update smbConfig noKeys [(TileKind.solid, groundTile)] (1/60)
        (handle_event smbConfig true restState)).vy = -850 ∧
    (update smbConfig noKeys [(TileKind.solid, groundTile)] (1/60)
        (handle_event smbConfig true restState)).on_ground = false := by
  refine ⟨?_, ?_, ?_⟩ <;> with_unfolding_all decide

/-- C8 as stated fails on the code: on a press tick the buffer is decayed by
`dt` before the jump check, so at the evaluation point it is
`JUMP_BUFFER - dt`, not `JUMP_BUFFER`. -/
theorem buffer_decay_cex :
    (stepTimers smbConfig (1/60) (stepClamp smbConfig noKeys (stepHoriz smbConfig noKeys (1/60)
        (handle_event smbConfig true restState)))).jump_buf ≠ smbConfig.JUMP_BUFFER := by
  with_unfolding_all decide

/-- C8 amended: on a press tick the handler loads `jump_buf = JUMP_BUFFER`,
and the timer step then decays it like on any other tick, so at the jump
evaluation point it equals `max 0 (JUMP_BUFFER - dt)`. -/
theorem buffer_press_decay (cfg : Config) (keys : Keys) (dt : ℚ) (s : PlayerState)
    (h : 0 < cfg.JUMP_BUFFER) :
    (stepTimers cfg dt (stepClamp cfg keys (stepHoriz cfg keys dt
        (handle_event cfg true s)))).jump_buf = max 0 (cfg.JUMP_BUFFER - dt) := by
  have h1 : (handle_event cfg true s).jump_buf = cfg.JUMP_BUFFER := by
    unfold handle_event
    rw [if_pos rfl]
  have key : ∀ p : PlayerState, p.jump_buf = cfg.JUMP_BUFFER →
      (stepTimers cfg dt p).jump_buf = max 0 (cfg.JUMP_BUFFER - dt) := by
    intro p hp
    show (if p.jump_buf > 0 then max 0 (p.jump_buf - dt) else p.jump_buf) = _
    rw [hp, if_pos h]
  exact key _ (by rw [stepClamp_jump_buf, stepHoriz_jump_buf, h1])

/-- C8 amended, instantiated at `dt = 1/60` from rest. -/
theorem buffer_press_decay_witness :
    (0 < smbConfig.JUMP_BUFFER) ∧
    (stepTimers smbConfig (1/60) (stepClamp smbConfig noKeys (stepHoriz smbConfig noKeys (1/60)
        (handle_event smbConfig true restState)))).jump_buf
      = max 0 (smbConfig.JUMP_BUFFER - 1/60) :=
  ⟨by with_unfolding_all decide,
   buffer_press_decay smbConfig noKeys (1/60) restState (by with_unfolding_all decide)⟩

/-- C9: constructing a player fails with the configuration error exactly
when the frames collection is empty; any non-empty frames collection
constructs successfully (the only construction-time failure). -/
theorem playerInit_empty_fails {α : Type} (frames : List α) :
    (playerInit frames = Except.error "Frames list cannot be empty" ↔ frames = []) ∧
    ∀ (f : α) (fs : List α), playerInit (f :: fs) = Except.ok ⟨f :: fs, f⟩ := by
  constructor
  · constructor
    · intro h
      cases frames with
      | nil => rfl
      | cons f fs => simp [playerInit] at h
    · intro h
      subst h
      rfl
  · intro f fs
    rfl

/-- C10: `Player.update` is deterministic — equal body states, key
snapshot, tile set and `dt` yield equal results; nothing outside the
arguments enters the per-tick physics. -/
theorem update_deterministic (cfg : Config) (keys : Keys) (tiles : List (TileKind × Rect))
    (dt : ℚ) (s₁ s₂ : PlayerState)
    (hx : s₁.x = s₂.x) (hy : s₁.y = s₂.y) (hw : s₁.w = s₂.w) (hh : s₁.h = s₂.h)
    (hvx : s₁.vx = s₂.vx) (hvy : s₁.vy = s₂.vy) (hfa : s₁.facing = s₂.facing)
    (hog : s₁.on_ground = s₂.on_ground) (hco : s₁.coyote = s₂.coyote)
    (hjb : s₁.jump_buf = s₂.jump_buf) :
    update cfg keys tiles dt s₁ = update cfg keys tiles dt s₂ := by
  have hs : s₁ = s₂ := by
    cases s₁
    cases s₂
    dsimp only at hx hy hw hh hvx hvy hfa hog hco hjb
    subst hx hy hw hh hvx hvy hfa hog hco hjb
    rfl
  rw [hs]

/-- C10 instantiated: two identical runs from the resting state agree. -/
theorem update_deterministic_witness :
    update smbConfig noKeys [(TileKind.solid, groundTile)] (1/60) restState =
      update smbConfig noKeys [(TileKind.solid, groundTile)] (1/60) restState :=
  update_deterministic smbConfig noKeys [(TileKind.solid, groundTile)] (1/60)
    restState restState rfl rfl rfl rfl rfl rfl rfl rfl rfl rfl

/-- C3: after every tick, for any inputs and any start state with
nonnegative timers: `|vx|` is at most the active max speed, `vy` at most
`MAX_FALL_SPEED`, and both timers are nonnegative; the bounds hold from the
step that establishes them through every later step of the tick. -/
theorem velocity_invariants (cfg : Config) (keys : Keys) (tiles : List (TileKind × Rect))
    (dt : ℚ) (s : PlayerState)
    (hwalk : 0 ≤ cfg.WALK_MAX_SPEED) (hrun : 0 ≤ cfg.RUN_MAX_SPEED)
    (hfall : 0 ≤ cfg.MAX_FALL_SPEED) (hcoy : 0 ≤ cfg.COYOTE_TIME)
    (hjb : 0 ≤ s.jump_buf) :
    ∀ s2 s5 s6 : PlayerState,
      s2 = stepClamp cfg keys (stepHoriz cfg keys dt s) →
      s5 = stepGravity cfg dt (stepJump cfg (stepTimers cfg dt s2)) →
      s6 = stepMoveX tiles dt s5 →
      |s2.vx| ≤ max_speed cfg keys ∧
      |s5.vx| ≤ max_speed cfg keys ∧
      s5.vy ≤ cfg.MAX_FALL_SPEED ∧
      |s6.vx| ≤ max_speed cfg keys ∧
      s6.vy ≤ cfg.MAX_FALL_SPEED ∧
      update cfg keys tiles dt s = stepMoveY tiles dt s6 ∧
      |(update cfg keys tiles dt s).vx| ≤ max_speed cfg keys ∧
      (update cfg keys tiles dt s).vy ≤ cfg.MAX_FALL_SPEED ∧
      0 ≤ (update cfg keys tiles dt s).coyote ∧
      0 ≤ (update cfg keys tiles dt s).jump_buf := by
  intro s2 s5 s6 h2 h5 h6
  have hm : 0 ≤ max_speed cfg keys := by
    unfold max_speed
    split <;> assumption
  have hc2 : |s2.vx| ≤ max_speed cfg keys := by
    rw [h2]
    exact stepClamp_abs_vx _ hm
  have hjvx : (stepJump cfg (stepTimers cfg dt s2)).vx = s2.vx := by
    rcases stepJump_cases cfg (stepTimers cfg dt s2) with h | h
    all_goals rw [h]
    all_goals rfl
  have hvx5 : s5.vx = s2.vx := by
    rw [h5]
    exact hjvx
  have hc5 : |s5.vx| ≤ max_speed cfg keys := hvx5 ▸ hc2
  have hvy5 : s5.vy ≤ cfg.MAX_FALL_SPEED := by
    rw [h5]
    exact stepGravity_vy_le cfg dt _
  obtain ⟨a6, v6, h6eq, hv6⟩ := stepMoveX_shape tiles dt s5
  have hc6 : |s6.vx| ≤ max_speed cfg keys := by
    rw [h6, h6eq]
    show |v6| ≤ max_speed cfg keys
    rcases hv6 with h | h
    · rw [h]
      exact hc5
    · rw [h, abs_zero]
      exact hm
  have hvy6 : s6.vy ≤ cfg.MAX_FALL_SPEED := by
    rw [h6, h6eq]
    exact hvy5
  have hco5 : 0 ≤ s5.coyote := by
    rw [h5]
    show 0 ≤ (stepJump cfg (stepTimers cfg dt s2)).coyote
    rcases stepJump_cases cfg (stepTimers cfg dt s2) with h | h
    · rw [h]
      exact stepTimers_coyote_nonneg hcoy
    · rw [h]
  have hjb2 : 0 ≤ s2.jump_buf := by
    rw [h2, stepClamp_jump_buf, stepHoriz_jump_buf]
    exact hjb
  have hjb5 : 0 ≤ s5.jump_buf := by
    rw [h5]
    show 0 ≤ (stepJump cfg (stepTimers cfg dt s2)).jump_buf
    rcases stepJump_cases cfg (stepTimers cfg dt s2) with h | h
    · rw [h]
      exact stepTimers_jump_buf_nonneg hjb2
    · rw [h]
  have hco6 : 0 ≤ s6.coyote := by
    rw [h6, h6eq]
    exact hco5
  have hjb6 : 0 ≤ s6.jump_buf := by
    rw [h6, h6eq]
    exact hjb5
  have hu : update cfg keys tiles dt s = stepMoveY tiles dt s6 := by
    rw [h6, h5, h2]
    rfl
  obtain ⟨b, vY, g, hYeq, hvY⟩ := stepMoveY_shape tiles dt s6
  refine ⟨hc2, hc5, hvy5, hc6, hvy6, hu, ?_, ?_, ?_, ?_⟩
  · rw [hu, hYeq]
    exact hc6
  · rw [hu, hYeq]
    show vY ≤ cfg.MAX_FALL_SPEED
    rcases hvY with h | h
    · rw [h]
      exact hvy6
    · rw [h]
      exact hfall
  · rw [hu, hYeq]
    exact hco6
  · rw [hu, hYeq]
    exact hjb6

/-- C3 instantiated at the resting state and `dt = 1/60`. -/
theorem velocity_invariants_witness :
    0 ≤ restState.jump_buf ∧
    |(update smbConfig noKeys [(TileKind.solid, groundTile)] (1/60) restState).vx|
      ≤ max_speed smbConfig noKeys ∧
    (update smbConfig noKeys [(TileKind.solid, groundTile)] (1/60) restState).vy
      ≤ smbConfig.MAX_FALL_SPEED ∧
    0 ≤ (update smbConfig noKeys [(TileKind.solid, groundTile)] (1/60) restState).coyote ∧
    0 ≤ (update smbConfig noKeys [(TileKind.solid, groundTile)] (1/60) restState).jump_buf := by
  obtain ⟨-, -, -, -, -, -, h7, h8, h9, h10⟩ :=
    velocity_invariants smbConfig noKeys [(TileKind.solid, groundTile)] (1/60) restState
      (by with_unfolding_all decide) (by with_unfolding_all decide)
      (by with_unfolding_all decide) (by with_unfolding_all decide)
      (by with_unfolding_all decide) _ _ _ rfl rfl rfl
  exact ⟨by with_unfolding_all decide, h7, h8, h9, h10⟩

lemma resolveX_oneWay (s : PlayerState) (r : Rect) :
    resolveX s (TileKind.oneWay, r) = s := by
  unfold resolveX
  rw [if_neg]
  rintro ⟨h, -⟩
  simp at h

lemma foldl_resolveX_filter (tiles : List (TileKind × Rect)) :
    ∀ s : PlayerState,
      tiles.foldl resolveX s =
        (tiles.filter fun p => decide (p.1 = TileKind.solid)).foldl resolveX s := by
  induction tiles with
  | nil => intro s; rfl
  | cons t ts ih =>
    intro s
    rcases t with ⟨k, r⟩
    cases k
    · rw [List.filter_cons_of_pos (by simp), List.foldl_cons, List.foldl_cons]
      exact ih _
    · rw [List.foldl_cons, resolveX_oneWay, List.filter_cons_of_neg (by simp)]
      exact ih s

/-- C5: one-way tiles never affect horizontal resolution (the X pass is the
same with them removed); in the Y pass a one-way tile resolves exactly when
the body is descending with its bottom within 8 units of the tile top and
its vertical center at or above the tile top — snapping the bottom to the
top, zeroing `vy` and grounding — and in particular never stops a body that
is ascending or whose box lies fully below the tile top. -/
theorem oneWay_platform_spec :
    (∀ (tiles : List (TileKind × Rect)) (dt : ℚ) (s : PlayerState),
        stepMoveX tiles dt s =
          stepMoveX (tiles.filter fun p => decide (p.1 = TileKind.solid)) dt s) ∧
    (∀ (s : PlayerState) (r : Rect),
      ((collide (rectOf s) r = true ∧ 0 < s.vy ∧ s.y + s.h - r.y ≤ 8 ∧
          s.y + s.h / 2 ≤ r.y) →
        resolveY s (TileKind.oneWay, r) =
          { s with y := r.y - s.h, vy := 0, on_ground := true }) ∧
      (¬(collide (rectOf s) r = true ∧ 0 < s.vy ∧ s.y + s.h - r.y ≤ 8 ∧
          s.y + s.h / 2 ≤ r.y) →
        resolveY s (TileKind.oneWay, r) = s) ∧
      (s.vy ≤ 0 → resolveY s (TileKind.oneWay, r) = s) ∧
      (2 ≤ s.h → r.y ≤ s.y → resolveY s (TileKind.oneWay, r) = s)) := by
  refine ⟨fun tiles dt s => ?_, fun s r => ⟨fun h => ?_, fun h => ?_, fun h => ?_, fun h2 hb => ?_⟩⟩
  · unfold stepMoveX
    exact foldl_resolveX_filter tiles _
  · unfold resolveY
    rw [if_neg (by simp), if_pos h]
  · unfold resolveY
    rw [if_neg (by simp), if_neg h]
  · unfold resolveY
    rw [if_neg (by simp), if_neg]
    rintro ⟨-, hv, -⟩
    exact absurd hv (not_lt.mpr h)
  · unfold resolveY
    rw [if_neg (by simp), if_neg]
    rintro ⟨-, -, -, hcent⟩
    dsimp only at hcent
    omega

/-- C5 instantiated: a body descending just past the platform top lands on
it; an ascending body passes through; the X pass ignores the tile. -/
theorem oneWay_platform_spec_witness :
    stepMoveX [(TileKind.oneWay, oneTile)] (1/60) dropState =
      stepMoveX (([(TileKind.oneWay, oneTile)] : List (TileKind × Rect)).filter
        fun p => decide (p.1 = TileKind.solid)) (1/60) dropState ∧
    resolveY dropState (TileKind.oneWay, oneTile) =
      { dropState with y := oneTile.y - dropState.h, vy := 0, on_ground := true } ∧
    resolveY riseState (TileKind.oneWay, oneTile) = riseState :=
  ⟨oneWay_platform_spec.1 _ _ _,
   (oneWay_platform_spec.2 dropState oneTile).1 (by with_unfolding_all decide),
   (oneWay_platform_spec.2 riseState oneTile).2.2.1 (by with_unfolding_all decide)⟩

/-- C6: a tick whose displaced box overlaps the single solid tile while
moving right ends flush with the tile's left edge with `vx = 0`; moving
left, flush with its right edge. -/
theorem wall_flush_right (cfg : Config) (keys : Keys) (dt : ℚ) (s : PlayerState) (t : Rect) :
    ∀ s5 : PlayerState,
      s5 = stepGravity cfg dt (stepJump cfg (stepTimers cfg dt (stepClamp cfg keys
        (stepHoriz cfg keys dt s)))) →
      collide (rectOf { s5 with x := s5.x + pyround (s5.vx * dt) }) t = true →
      ((0 < s5.vx →
          (update cfg keys [(TileKind.solid, t)] dt s).x +
            (update cfg keys [(TileKind.solid, t)] dt s).w = t.x ∧
          (update cfg keys [(TileKind.solid, t)] dt s).vx = 0) ∧
       (s5.vx < 0 →
          (update cfg keys [(TileKind.solid, t)] dt s).x = t.x + t.w ∧
          (update cfg keys [(TileKind.solid, t)] dt s).vx = 0)) := by
  intro s5 h5 hcol
  have hu : update cfg keys [(TileKind.solid, t)] dt s =
      stepMoveY [(TileKind.solid, t)] dt (stepMoveX [(TileKind.solid, t)] dt s5) := by
    rw [h5]
    rfl
  constructor
  · intro hvx
    have hmx : stepMoveX [(TileKind.solid, t)] dt s5 =
        { s5 with x := t.x - s5.w, vx := 0 } := by
      unfold stepMoveX
      rw [List.foldl_cons, List.foldl_nil]
      unfold resolveX
      rw [if_pos ⟨rfl, hcol⟩,
        if_pos (show ({ s5 with x := s5.x + pyround (s5.vx * dt) } : PlayerState).vx > 0 from hvx)]
    obtain ⟨b, vY, g, hYeq, -⟩ :=
      stepMoveY_shape [(TileKind.solid, t)] dt { s5 with x := t.x - s5.w, vx := 0 }
    constructor
    · rw [hu, hmx, hYeq]
      show (t.x - s5.w) + s5.w = t.x
      omega
    · rw [hu, hmx, hYeq]
  · intro hvx
    have hmx : stepMoveX [(TileKind.solid, t)] dt s5 =
        { s5 with x := t.x + t.w, vx := 0 } := by
      unfold stepMoveX
      rw [List.foldl_cons, List.foldl_nil]
      unfold resolveX
      rw [if_pos ⟨rfl, hcol⟩,
        if_neg (show ¬({ s5 with x := s5.x + pyround (s5.vx * dt) } : PlayerState).vx > 0 from
          not_lt.mpr (le_of_lt hvx)),
        if_pos (show ({ s5 with x := s5.x + pyround (s5.vx * dt) } : PlayerState).vx < 0 from hvx)]
    obtain ⟨b, vY, g, hYeq, -⟩ :=
      stepMoveY_shape [(TileKind.solid, t)] dt { s5 with x := t.x + t.w, vx := 0 }
    constructor
    · rw [hu, hmx, hYeq]
    · rw [hu, hmx, hYeq]

/-- C6 instantiated: a body running right at the wall tile ends the tick
flush with its left edge. -/
theorem wall_flush_right_witness :
    (update smbConfig noKeys [(TileKind.solid, wallTile)] (1/60) wallState).x +
      (update smbConfig noKeys [(TileKind.solid, wallTile)] (1/60) wallState).w
      = wallTile.x ∧
    (update smbConfig noKeys [(TileKind.solid, wallTile)] (1/60) wallState).vx = 0 :=
  (wall_flush_right smbConfig noKeys (1/60) wallState wallTile _ rfl
    (by with_unfolding_all decide)).1 (by with_unfolding_all decide)


/-! ### C2: resting contact -/

lemma resolveX_of_vx_zero (s : PlayerState) (t : TileKind × Rect) (h : s.vx = 0) :
    resolveX s t = s := by
  unfold resolveX
  split
  · rw [if_neg (by rw [h]; exact lt_irrefl 0), if_neg (by rw [h]; exact lt_irrefl 0), ← h]
  · rfl

lemma foldl_resolveX_vx_zero (tiles : List (TileKind × Rect)) :
    ∀ s : PlayerState, s.vx = 0 → tiles.foldl resolveX s = s := by
  induction tiles with
  | nil => intro s h; rfl
  | cons t ts ih =>
    intro s h
    rw [List.foldl_cons, resolveX_of_vx_zero s t h]
    exact ih s h

lemma stepMoveX_of_vx_zero (tiles : List (TileKind × Rect)) (dt : ℚ) (s : PlayerState)
    (h : s.vx = 0) : stepMoveX tiles dt s = s := by
  unfold stepMoveX
  have h0 : pyround (s.vx * dt) = 0 := by rw [h, zero_mul, pyround_zero]
  rw [h0, add_zero]
  exact foldl_resolveX_vx_zero tiles s h

lemma stepMoveY_land (tile : Rect) (dt : ℚ) (p : PlayerState)
    (hvy : 0 < p.vy)
    (hd1 : 1 ≤ pyround (p.vy * dt))
    (hd2 : pyround (p.vy * dt) < p.h + tile.h)
    (hy : p.y + p.h = tile.y)
    (hx1 : p.x < tile.x + tile.w) (hx2 : tile.x < p.x + p.w) :
    stepMoveY [(TileKind.solid, tile)] dt p =
      { p with y := tile.y - p.h, vy := 0, on_ground := true } := by
  have hcol : collide
      (rectOf { p with on_ground := false, y := p.y + pyround (p.vy * dt) }) tile = true := by
    rw [collide_iff]
    refine ⟨hx1, ?_, hx2, ?_⟩
    · show p.y + pyround (p.vy * dt) < tile.y + tile.h
      omega
    · show tile.y < (p.y + pyround (p.vy * dt)) + p.h
      omega
  have hvyM : ({ p with on_ground := false, y := p.y + pyround (p.vy * dt) } : PlayerState).vy > 0 :=
    hvy
  unfold stepMoveY
  rw [List.foldl_cons, List.foldl_nil]
  unfold resolveY
  rw [if_pos rfl, if_pos hcol, if_pos hvyM]

lemma rest_tick (cfg : Config) (dt : ℚ) (tile : Rect) (s : PlayerState)
    (hwalk : 0 ≤ cfg.WALK_MAX_SPEED)
    (hg : 0 < cfg.GRAVITY * dt)
    (hgf : cfg.GRAVITY * dt ≤ cfg.MAX_FALL_SPEED)
    (hd1 : 1 ≤ pyround (cfg.GRAVITY * dt * dt))
    (hd2 : pyround (cfg.GRAVITY * dt * dt) < s.h + tile.h)
    (hy : s.y + s.h = tile.y) (hvx : s.vx = 0) (hvy : s.vy = 0) (hjb : s.jump_buf = 0)
    (hx1 : s.x < tile.x + tile.w) (hx2 : tile.x < s.x + s.w) :
    ∃ c : ℚ, update cfg noKeys [(TileKind.solid, tile)] dt s =
      { s with y := tile.y - s.h, vy := 0, on_ground := true, coyote := c, jump_buf := 0 } := by
  have e1 : stepHoriz cfg noKeys dt s = s := by
    unfold stepHoriz noKeys
    rw [if_neg (by simp), if_neg (not_not.mpr hvx)]
  have e2 : stepClamp cfg noKeys s = s := by
    have hnc : ¬(|s.vx| > max_speed cfg noKeys) := by
      rw [hvx, abs_zero]
      show ¬((0 : ℚ) > cfg.WALK_MAX_SPEED)
      exact not_lt.mpr hwalk
    unfold stepClamp
    rw [if_neg hnc]
  obtain ⟨c, hc⟩ : ∃ c : ℚ, stepTimers cfg dt s = { s with coyote := c, jump_buf := 0 } := by
    refine ⟨if s.on_ground then cfg.COYOTE_TIME else max 0 (s.coyote - dt), ?_⟩
    unfold stepTimers
    rw [hjb, if_neg (lt_irrefl (0 : ℚ))]
  have e4 : stepJump cfg { s with coyote := c, jump_buf := 0 } =
      { s with coyote := c, jump_buf := 0 } := by
    unfold stepJump
    rw [if_neg]
    rintro ⟨hpos, -⟩
    exact lt_irrefl 0 hpos
  have e5 : stepGravity cfg dt { s with coyote := c, jump_buf := 0 } =
      { s with coyote := c, jump_buf := 0, vy := cfg.GRAVITY * dt } := by
    unfold stepGravity
    dsimp only
    rw [hvy, zero_add, min_eq_left hgf]
  have e6 : stepMoveX [(TileKind.solid, tile)] dt
      { s with coyote := c, jump_buf := 0, vy := cfg.GRAVITY * dt } =
      { s with coyote := c, jump_buf := 0, vy := cfg.GRAVITY * dt } :=
    stepMoveX_of_vx_zero _ _ _ hvx
  have hland : stepMoveY [(TileKind.solid, tile)] dt
      { s with coyote := c, jump_buf := 0, vy := cfg.GRAVITY * dt } =
      { s with coyote := c, jump_buf := 0, vy := 0, y := tile.y - s.h, on_ground := true } := by
    exact stepMoveY_land tile dt { s with coyote := c, jump_buf := 0, vy := cfg.GRAVITY * dt }
      hg hd1 hd2 (show s.y + s.h = tile.y from hy) hx1 hx2
  refine ⟨c, ?_⟩
  show stepMoveY [(TileKind.solid, tile)] dt
      (stepMoveX [(TileKind.solid, tile)] dt
        (stepGravity cfg dt
          (stepJump cfg
            (stepTimers cfg dt
              (stepClamp cfg noKeys
                (stepHoriz cfg noKeys dt s)))))) = _
  rw [e1, e2, hc, e4, e5, e6, hland]

/-- A body at rest exactly on top of `tile`: bottom edge on the tile top,
horizontally over it, no velocity, empty jump buffer, and the nominal
sizes (body at least 4 px tall, tile at least 1 px tall). -/
def Resting (tile : Rect) (s : PlayerState) : Prop :=
  s.y + s.h = tile.y ∧ s.vx = 0 ∧ s.vy = 0 ∧ s.jump_buf = 0 ∧
  s.x < tile.x + tile.w ∧ tile.x < s.x + s.w ∧ 4 ≤ s.h ∧ 1 ≤ tile.h

/-- C2, amended: for any tuning and tick duration whose rounded per-tick
gravity displacement `int(round(GRAVITY*dt*dt))` is at least one pixel
(and below body height plus tile height), a body resting on a solid tile
with no input stays resting: after every subsequent tick it is grounded,
its bottom edge is back on the tile top, and its velocity is zero.  The
smb tuning (GRAVITY = 3000) satisfies the condition for every
`dt ∈ [1/60, 1/30]`; the DS tuning (GRAVITY = 1500) violates it at
`dt = 1/60`, where the displacement rounds to 0 px and the tick ends with
`on_ground = false` (see the counterexample), though the body never moves
down. -/
theorem rest_stays_grounded (cfg : Config) (dt : ℚ) (tile : Rect) (s : PlayerState)
    (hwalk : 0 ≤ cfg.WALK_MAX_SPEED)
    (hg : 0 < cfg.GRAVITY * dt)
    (hgf : cfg.GRAVITY * dt ≤ cfg.MAX_FALL_SPEED)
    (hd1 : 1 ≤ pyround (cfg.GRAVITY * dt * dt))
    (hd2 : pyround (cfg.GRAVITY * dt * dt) < s.h + tile.h)
    (hr : Resting tile s) :
    ∀ n : ℕ, 1 ≤ n →
      ((fun p => update cfg noKeys [(TileKind.solid, tile)] dt p)^[n] s).on_ground = true ∧
      Resting tile ((fun p => update cfg noKeys [(TileKind.solid, tile)] dt p)^[n] s) := by
  have step : ∀ p : PlayerState, Resting tile p → p.h = s.h →
      Resting tile (update cfg noKeys [(TileKind.solid, tile)] dt p) ∧
      (update cfg noKeys [(TileKind.solid, tile)] dt p).h = s.h ∧
      (update cfg noKeys [(TileKind.solid, tile)] dt p).on_ground = true := by
    intro p hp hph
    obtain ⟨hy, hvx, hvy, hjb, hx1, hx2, hh, hth⟩ := hp
    obtain ⟨c, hu⟩ := rest_tick cfg dt tile p hwalk hg hgf hd1
      (by rw [hph]; exact hd2) hy hvx hvy hjb hx1 hx2
    rw [hu]
    refine ⟨⟨?_, hvx, rfl, rfl, hx1, hx2, hh, hth⟩, hph, rfl⟩
    show (tile.y - p.h) + p.h = tile.y
    omega
  have all : ∀ k : ℕ,
      Resting tile ((fun p => update cfg noKeys [(TileKind.solid, tile)] dt p)^[k] s) ∧
      ((fun p => update cfg noKeys [(TileKind.solid, tile)] dt p)^[k] s).h = s.h := by
    intro k
    induction k with
    | zero => exact ⟨hr, rfl⟩
    | succ m ih =>
      rw [Function.iterate_succ_apply']
      exact ⟨(step _ ih.1 ih.2).1, (step _ ih.1 ih.2).2.1⟩
  intro n hn
  cases n with
  | zero => omega
  | succ m =>
    rw [Function.iterate_succ_apply']
    exact ⟨(step _ (all m).1 (all m).2).2.2, (step _ (all m).1 (all m).2).1⟩

/-- C2 as stated fails on the code, in both cited variants: under the smb
tuning at `dt = 1/100` (positive, under the host loop's 1/30 cap), and
under the DS tuning at `dt = 1/60` (inside the loop's own frame time),
the rounded gravity displacement is 0 pixels, the resting body never
re-enters the tile, and the tick ends with `on_ground = false` — with the
body's position unchanged (it does not fall through). -/
theorem rest_small_dt_airborne_cex :
    ((0 : ℚ) < 1/100) ∧ ((1 : ℚ)/100 ≤ 1/30) ∧
    restState.y + restState.h = groundTile.y ∧ restState.vx = 0 ∧ restState.vy = 0 ∧
    (update smbConfig noKeys [(TileKind.solid, groundTile)] (1/100) restState).on_ground
      = false ∧
    (update smbConfig noKeys [(TileKind.solid, groundTile)] (1/100) restState).y
      = restState.y ∧
    ((0 : ℚ) < 1/60) ∧ ((1 : ℚ)/60 ≤ 1/30) ∧
    dsRestState.y + dsRestState.h = dsTile.y ∧ dsRestState.vx = 0 ∧ dsRestState.vy = 0 ∧
    (update dsConfig noKeys [(TileKind.solid, dsTile)] (1/60) dsRestState).on_ground
      = false ∧
    (update dsConfig noKeys [(TileKind.solid, dsTile)] (1/60) dsRestState).y
      = dsRestState.y := by
  refine ⟨by norm_num, by norm_num, ?_, ?_, ?_, ?_, ?_, by norm_num, by norm_num,
    ?_, ?_, ?_, ?_, ?_⟩ <;> with_unfolding_all decide

/-- C2 amended, instantiated: the smb resting scenario at `dt = 1/60`,
one tick, with every hypothesis checked concretely. -/
theorem rest_stays_grounded_witness :
    (0 ≤ smbConfig.WALK_MAX_SPEED) ∧
    (0 < smbConfig.GRAVITY * (1/60)) ∧
    (smbConfig.GRAVITY * (1/60) ≤ smbConfig.MAX_FALL_SPEED) ∧
    (1 ≤ pyround (smbConfig.GRAVITY * (1/60) * (1/60))) ∧
    (pyround (smbConfig.GRAVITY * (1/60) * (1/60)) < restState.h + groundTile.h) ∧
    Resting groundTile restState ∧ 1 ≤ 1 ∧
    ((fun p => update smbConfig noKeys [(TileKind.solid, groundTile)] (1/60) p)^[1]
        restState).on_ground = true ∧
    Resting groundTile
      ((fun p => update smbConfig noKeys [(TileKind.solid, groundTile)] (1/60) p)^[1]
        restState) := by
  have hr : Resting groundTile restState := by
    unfold Resting
    refine ⟨?_, ?_, ?_, ?_, ?_, ?_, ?_, ?_⟩ <;> with_unfolding_all decide
  have h := rest_stays_grounded smbConfig (1/60) groundTile restState
    (by with_unfolding_all decide) (by with_unfolding_all decide)
    (by with_unfolding_all decide) (by with_unfolding_all decide)
    (by with_unfolding_all decide) hr 1 (by norm_num)
  exact ⟨by with_unfolding_all decide, by with_unfolding_all decide,
    by with_unfolding_all decide, by with_unfolding_all decide,
    by with_unfolding_all decide, hr, by norm_num, h.1, h.2⟩

end Platformer
